/-
Verification of the background service worker of the net-fail extension
(`src/background.ts`, constants from `src/constants.ts`).

The embedding below translates the TypeScript source into Lean:
* `chrome.storage.local` under the pending-headers key is the `mirror`
  field of `BgState`; the in-memory `headerCache` (a `Map`) and
  `pendingMap` (a plain object) are the other two fields.  All three are
  modelled as functions `String → Option HeaderCacheEntry`, where `none`
  means the key is absent.
* A JS object `{requestHeaders?, responseHeaders?}` is a structure of two
  `Option (List HttpHeader)` fields; an absent key is `none`.  The JS
  spread `{...a, ...b}` is `spreadMerge a b` (fields of `b` win when
  present).
* The failed-request store under the requests key, together with the
  badge surface, is `StoreState`.
* `Date.now()` is passed in explicitly as a `now : Nat` parameter.
* Asynchrony is sequentialised: each handler is a pure state transformer,
  which matches the source's single-threaded execution of one handler.
-/
import Mathlib

namespace NetFail

/-- HTTP header name/value pair (`HttpHeader` in `src/types.ts`).
Response-header entries have optional fields in TS; header contents are
opaque to `background.ts`, so one concrete pair type serves both arrays. -/
structure HttpHeader where
  name : String
  value : String
deriving DecidableEq, Repr

/-- `HeaderCacheEntry` from `background.ts`: a partial header patch.
An absent object key is `none`. -/
structure HeaderCacheEntry where
  requestHeaders : Option (List HttpHeader) := none
  responseHeaders : Option (List HttpHeader) := none
deriving DecidableEq, Repr

/-- JS object spread `{...a, ...b}` on `HeaderCacheEntry`-shaped objects:
a key of `b`, when present, overrides the key of `a`. -/
def spreadMerge (a b : HeaderCacheEntry) : HeaderCacheEntry :=
  { requestHeaders := b.requestHeaders.orElse fun _ => a.requestHeaders
    responseHeaders := b.responseHeaders.orElse fun _ => a.responseHeaders }

/-- `PendingHeadersMap` / the `Map` backing `headerCache`: `none` = key absent. -/
def HeadersMap : Type := String → Option HeaderCacheEntry

/-- Point update of a map; setting `none` is key deletion (`delete m[k]`). -/
def setKey (m : HeadersMap) (k : String) (v : Option HeaderCacheEntry) : HeadersMap :=
  fun k2 => if k2 = k then v else m k2

/-- The map with no keys. -/
def emptyMap : HeadersMap := fun _ => none

/-- `MAX_STORED_REQUESTS` from `src/constants.ts`. -/
def MAX_STORED_REQUESTS : Nat := 500

/-- `PENDING_FLUSH_DELAY` from `src/constants.ts` (milliseconds). -/
def PENDING_FLUSH_DELAY : Nat := 1000

/-- The mutable module state of `background.ts` that concerns pending
headers: the in-memory `headerCache` `Map`, the in-memory `pendingMap`
object, the durable mirror stored under `STORAGE_KEY_PENDING_HEADERS`,
and whether the debounced flush timer is currently armed. -/
structure BgState where
  headerCache : HeadersMap
  pendingMap : HeadersMap
  mirror : HeadersMap
  pendingFlushTimer : Bool

/-- The state at module load: empty caches, nothing durable, no timer. -/
def initialBgState : BgState :=
  { headerCache := emptyMap, pendingMap := emptyMap, mirror := emptyMap
    pendingFlushTimer := false }

/-- `flushPendingHeaders`: cancel any armed timer, then write the whole
in-memory `pendingMap` to the durable mirror. -/
def flushPendingHeaders (s : BgState) : BgState :=
  let s := if s.pendingFlushTimer then { s with pendingFlushTimer := false } else s
  { s with mirror := s.pendingMap }

/-- `scheduleFlush`: (re)arm the single debounce timer. -/
def scheduleFlush (s : BgState) : BgState :=
  { s with pendingFlushTimer := true }

/-- `readPendingHeaders`: read the durable mirror (`{}` fallback is the
empty map, which `none`-valued functions already encode). -/
def readPendingHeaders (s : BgState) : HeadersMap := s.mirror

/-- `writePendingHeaders`: overwrite the durable mirror wholesale. -/
def writePendingHeaders (s : BgState) (pending : HeadersMap) : BgState :=
  { s with mirror := pending }

/-- `updatePendingHeaders`: merge `patch` over the existing `pendingMap`
entry, store the merged entry in both `pendingMap` and `headerCache`, and
schedule a debounced flush.  (The TS function also returns the merged
entry; no caller uses it.) -/
def updatePendingHeaders (s : BgState) (requestId : String)
    (patch : HeaderCacheEntry) : BgState :=
  let existing := spreadMerge ((s.pendingMap requestId).getD {}) patch
  let s := { s with pendingMap := setKey s.pendingMap requestId (some existing)
                    headerCache := setKey s.headerCache requestId (some existing) }
  scheduleFlush s

/-- `consumePendingHeaders`: flush, read the mirror, delete the entry from
the mirror (when present), read the in-memory cache, delete the entry from
both in-memory maps, and return `{...stored, ...cached}`. -/
def consumePendingHeaders (s : BgState) (requestId : String) :
    HeaderCacheEntry × BgState :=
  let s := flushPendingHeaders s
  let pending := readPendingHeaders s
  let stored := pending requestId
  let s := match stored with
    | some _ => writePendingHeaders s (setKey pending requestId none)
    | none => s
  let cached := s.headerCache requestId
  let s := { s with pendingMap := setKey s.pendingMap requestId none
                    headerCache := setKey s.headerCache requestId none }
  (spreadMerge (stored.getD {}) (cached.getD {}), s)

/-- The startup IIFE of `background.ts`, cache-seeding part: replace
`pendingMap` with the stored mirror snapshot and copy every stored entry
into `headerCache`.  (The TS name is a reserved word here.) -/
def initializeBg (s : BgState) : BgState :=
  let stored := readPendingHeaders s
  { s with pendingMap := stored
           headerCache := fun k => match stored k with
             | some v => some v
             | none => s.headerCache k }

/-- `StoredFailedRequest` from `background.ts`.  `url` is `Option String`
so that the defensive `!requestData.url || typeof requestData.url !==
'string'` check has something to reject: `none` stands for a missing (or
non-string) url, and the empty string is the falsy string. -/
structure StoredFailedRequest where
  id : String
  url : Option String
  method : String
  statusCode : Option Nat
  error : String
  timestamp : Nat
  type : Option String := none
  requestHeaders : Option (List HttpHeader) := none
  responseHeaders : Option (List HttpHeader) := none
  initiator : Option String := none
  tabId : Option Int := none
deriving DecidableEq, Repr

/-- The persisted request list (under `STORAGE_KEY_REQUESTS`) together
with the badge surface written by `chrome.action`. -/
structure StoreState where
  requests : List StoredFailedRequest
  badgeText : String
  badgeColor : String
deriving DecidableEq, Repr

/-- Fresh storage: no stored failures, badge not yet painted. -/
def initialStoreState : StoreState :=
  { requests := [], badgeText := "", badgeColor := "" }

/-- `updateBadgeCount`: derive badge text and colour from a count. -/
def updateBadgeCount (s : StoreState) (count : Nat) : StoreState :=
  { s with badgeText := if count > 0 then (if count > 99 then "99+" else toString count) else ""
           badgeColor := if count > 0 then "#e74c3c" else "#888888" }

/-- `String.startsWith`, expressed as character-sequence prefix testing
(the built-in byte-level test is opaque to the kernel; this is its
specification on the character sequences). -/
def strStartsWith (s p : String) : Bool := p.data.isPrefixOf s.data

/-- The internal/privileged scheme test of `storeFailedRequest`. -/
def internalUrl (url : String) : Bool :=
  strStartsWith url "chrome-extension://" || strStartsWith url "chrome://" ||
  strStartsWith url "about:" || strStartsWith url "moz-extension://"

/-- `storeFailedRequest`: validate the url (missing/non-string, falsy, or
internal scheme is silently dropped), prepend the record, truncate to
`MAX_STORED_REQUESTS` when over the limit, persist, and update the badge. -/
def storeFailedRequest (s : StoreState) (requestData : StoredFailedRequest) :
    StoreState :=
  match requestData.url with
  | none => s
  | some url =>
    if url = "" then s
    else if internalUrl url then s
    else
      let failedRequests := requestData :: s.requests
      let failedRequests :=
        if failedRequests.length > MAX_STORED_REQUESTS then
          failedRequests.take MAX_STORED_REQUESTS
        else failedRequests
      updateBadgeCount { s with requests := failedRequests } failedRequests.length

/-- `onBeforeSendHeaders` listener body (the primary request-header
channel): patch the cache with `details.requestHeaders ?? []`. -/
def onBeforeSendHeaders (s : BgState) (requestId : String)
    (requestHeaders : Option (List HttpHeader)) : BgState :=
  updatePendingHeaders s requestId { requestHeaders := some (requestHeaders.getD []) }

/-- The truthiness test `existing?.requestHeaders?.length` used by the
fallback listener: true exactly when the cache already holds a non-empty
request-header list for this request. -/
def hasNonEmptyRequestHeaders : Option HeaderCacheEntry → Bool
  | some e => match e.requestHeaders with
    | some l => decide (l.length ≠ 0)
    | none => false
  | none => false

/-- `onSendHeaders` listener body (the fallback request-header channel):
patch only if the cache does not already hold non-empty request headers. -/
def onSendHeaders (s : BgState) (requestId : String)
    (requestHeaders : Option (List HttpHeader)) : BgState :=
  let existing := s.headerCache requestId
  if hasNonEmptyRequestHeaders existing then s
  else updatePendingHeaders s requestId { requestHeaders := some (requestHeaders.getD []) }

/-- `onHeadersReceived` listener body: patch the response-header slot. -/
def onHeadersReceived (s : BgState) (requestId : String)
    (responseHeaders : Option (List HttpHeader)) : BgState :=
  updatePendingHeaders s requestId { responseHeaders := some (responseHeaders.getD []) }

/-- The event payload of `chrome.webRequest.onCompleted`. -/
structure CompletedDetails where
  requestId : String
  url : String
  method : Option String
  statusCode : Nat
  type : Option String := none
  initiator : Option String := none
  tabId : Option Int := none
deriving Repr

/-- The event payload of `chrome.webRequest.onErrorOccurred`. -/
structure ErrorDetails where
  requestId : String
  url : String
  method : Option String
  error : Option String
  type : Option String := none
  initiator : Option String := none
  tabId : Option Int := none
deriving Repr

/-- The record object literal built inside the `onCompleted` listener. -/
def completedRecord (d : CompletedDetails) (now : Nat)
    (cached : HeaderCacheEntry) : StoredFailedRequest :=
  { id := d.requestId ++ "-" ++ toString now
    url := some d.url
    method := d.method.getD "GET"
    statusCode := some d.statusCode
    error := "HTTP " ++ toString d.statusCode
    timestamp := now
    type := d.type
    requestHeaders := cached.requestHeaders
    responseHeaders := cached.responseHeaders
    initiator := d.initiator
    tabId := d.tabId }

/-- `onCompleted` listener body: only status codes `>= 400` are captured;
for those, consume the pending headers and store the record. -/
def onCompleted (bg : BgState) (st : StoreState) (d : CompletedDetails)
    (now : Nat) : BgState × StoreState :=
  if 400 ≤ d.statusCode then
    let r := consumePendingHeaders bg d.requestId
    (r.2, storeFailedRequest st (completedRecord d now r.1))
  else (bg, st)

/-- The record object literal built inside the `onErrorOccurred` listener:
`statusCode` is the literal `null`, `error` is `details.error ?? 'Unknown
error'`. -/
def errorRecord (d : ErrorDetails) (now : Nat)
    (cached : HeaderCacheEntry) : StoredFailedRequest :=
  { id := d.requestId ++ "-" ++ toString now
    url := some d.url
    method := d.method.getD "GET"
    statusCode := none
    error := d.error.getD "Unknown error"
    timestamp := now
    type := d.type
    requestHeaders := cached.requestHeaders
    responseHeaders := cached.responseHeaders
    initiator := d.initiator
    tabId := d.tabId }

/-- `onErrorOccurred` listener body: every error event consumes the
pending headers and attempts to store a record. -/
def onErrorOccurred (bg : BgState) (st : StoreState) (d : ErrorDetails)
    (now : Nat) : BgState × StoreState :=
  let r := consumePendingHeaders bg d.requestId
  (r.2, storeFailedRequest st (errorRecord d now r.1))

/-- Responses of the `chrome.runtime.onMessage` handler. -/
inductive MessageResponse where
  | failedRequests (rs : List StoredFailedRequest)
  | success (ok : Bool)
  | error (msg : String)
deriving DecidableEq, Repr

/-- `handleMessage` inside the `onMessage` listener: `getFailedRequests`
returns the stored list, `clearFailedRequests` empties the store and
republishes a zero badge, anything else is an explicit error payload. -/
def handleMessage (s : StoreState) (action : String) :
    MessageResponse × StoreState :=
  if action = "getFailedRequests" then
    (.failedRequests s.requests, s)
  else if action = "clearFailedRequests" then
    let s := { s with requests := [] }
    let s := updateBadgeCount s 0
    (.success true, s)
  else
    (.error ("Unknown action: " ++ action), s)

/-- One header-phase event for a single request, carrying the header
array the host delivered (`none` = the payload field was absent). -/
inductive HeaderEvent where
  | beforeSendHeaders (hs : Option (List HttpHeader))
  | sendHeaders (hs : Option (List HttpHeader))
  | headersReceived (hs : Option (List HttpHeader))
deriving DecidableEq, Repr

/-- Dispatch one header event for `requestId` to its listener. -/
def stepHeaderEvent (requestId : String) (s : BgState) : HeaderEvent → BgState
  | .beforeSendHeaders hs => onBeforeSendHeaders s requestId hs
  | .sendHeaders hs => onSendHeaders s requestId hs
  | .headersReceived hs => onHeadersReceived s requestId hs

/-- Run a sequence of header events for one `requestId`. -/
def runHeaderEvents (s : BgState) (requestId : String)
    (es : List HeaderEvent) : BgState :=
  es.foldl (stepHeaderEvent requestId) s

/-- The `requestHeaders` the terminal event actually stores after the
events `es` for request `"1"` hit a fresh worker: what
`consumePendingHeaders` hands to the record builder. -/
def codeStoredRequestHeaders (es : List HeaderEvent) : Option (List HttpHeader) :=
  (consumePendingHeaders (runHeaderEvents initialBgState "1" es) "1").1.requestHeaders

/-- Last value delivered on the primary channel (`onBeforeSendHeaders`),
after the listener's `?? []` defaulting; `none` when no primary event fired. -/
def lastPrimaryValue (es : List HeaderEvent) : Option (List HttpHeader) :=
  es.foldl (fun acc e => match e with
    | .beforeSendHeaders hs => some (hs.getD [])
    | _ => acc) none

/-- Last value delivered on the fallback channel (`onSendHeaders`),
after the listener's `?? []` defaulting; `none` when no fallback event fired. -/
def lastFallbackValue (es : List HeaderEvent) : Option (List HttpHeader) :=
  es.foldl (fun acc e => match e with
    | .sendHeaders hs => some (hs.getD [])
    | _ => acc) none

/-- Stated from the spec's words, for comparison with the code: `the
stored requestHeaders equals the last value delivered on the primary
channel if non-empty, otherwise the fallback channel's value`. -/
def specStoredRequestHeaders (es : List HeaderEvent) : Option (List HttpHeader) :=
  match lastPrimaryValue es with
  | some v => if v ≠ [] then some v else lastFallbackValue es
  | none => lastFallbackValue es

/-- One record per index, with distinct ids and timestamps. -/
def scenarioRecord (i : Nat) : StoredFailedRequest :=
  { id := toString i
    url := some "https://example.com/"
    method := "GET"
    statusCode := some 500
    error := "HTTP 500"
    timestamp := i }

/-- The spec scenario: 501 uniquely-identified records inserted in
sequence into an empty store of capacity 500. -/
def scenarioFinal : StoreState :=
  ((List.range 501).map scenarioRecord).foldl storeFailedRequest initialStoreState

/-- The record the `onCompleted` listener builds and submits to
`storeFailedRequest`, as an observable: `none` when the status-code guard
rejects the event and the listener body is a no-op. -/
def onCompletedProduced (bg : BgState) (d : CompletedDetails) (now : Nat) :
    Option StoredFailedRequest :=
  if 400 ≤ d.statusCode then
    some (completedRecord d now (consumePendingHeaders bg d.requestId).1)
  else none

/-- A completion event right on the failure boundary. -/
def exCompleted400 : CompletedDetails :=
  { requestId := "1", url := "https://example.com/", method := none, statusCode := 400 }

/-- A completion event just below the failure boundary. -/
def exCompleted399 : CompletedDetails :=
  { requestId := "1", url := "https://example.com/", method := none, statusCode := 399 }

/-- An error event for a request that never had a header event. -/
def noHeaderErrorDetails : ErrorDetails :=
  { requestId := "7", url := "https://example.com/x", method := none, error := none }

/-- The two in-memory maps agree at every key. -/
def cacheInv (s : BgState) : Prop :=
  ∀ k, s.headerCache k = s.pendingMap k

/-- The request-header slot the terminal event will see for `requestId`. -/
def slotReq (s : BgState) (requestId : String) : Option (List HttpHeader) :=
  (s.headerCache requestId).bind fun e => e.requestHeaders

/-- A url that survives `storeFailedRequest` validation. -/
def urlOk (r : StoredFailedRequest) : Prop :=
  ∃ u, r.url = some u ∧ u ≠ "" ∧ internalUrl u = false

/-! ### Helper lemmas -/

theorem Option.orElse_self {α : Type} (x : Option α) :
    (x.orElse fun _ => x) = x := by cases x <;> rfl

theorem spreadMerge_self (e : HeaderCacheEntry) : spreadMerge e e = e := by
  simp [spreadMerge, Option.orElse_self]

theorem setKey_same (m : HeadersMap) (k : String) (v : Option HeaderCacheEntry) :
    setKey m k v k = v := by simp [setKey]

theorem setKey_other (m : HeadersMap) (k k2 : String)
    (v : Option HeaderCacheEntry) (h : k2 ≠ k) : setKey m k v k2 = m k2 := by
  simp [setKey, h]

theorem cacheInv_initial : cacheInv initialBgState := fun _ => rfl

theorem cacheInv_update (s : BgState) (requestId : String)
    (patch : HeaderCacheEntry) (h : cacheInv s) :
    cacheInv (updatePendingHeaders s requestId patch) := by
  intro k
  simp only [updatePendingHeaders, scheduleFlush, setKey]
  split
  · rfl
  · exact h k

/-- `flushPendingHeaders` leaves both in-memory maps untouched. -/
theorem flush_headerCache (s : BgState) :
    (flushPendingHeaders s).headerCache = s.headerCache := by
  simp only [flushPendingHeaders]; split <;> rfl

theorem flush_pendingMap (s : BgState) :
    (flushPendingHeaders s).pendingMap = s.pendingMap := by
  simp only [flushPendingHeaders]; split <;> rfl

/-- `flushPendingHeaders` writes the whole in-memory pending map durably. -/
theorem flush_mirror (s : BgState) :
    (flushPendingHeaders s).mirror = s.pendingMap := by
  simp only [flushPendingHeaders]; split <;> rfl

theorem setKey_none_of_none (m : HeadersMap) (k : String) (h : m k = none) :
    setKey m k none = m := by
  funext k2
  simp only [setKey]
  split
  · next he => rw [he, h]
  · rfl

/-- After a consume, both in-memory maps have lost exactly the entry. -/
theorem consume_snd_headerCache (s : BgState) (requestId : String) :
    (consumePendingHeaders s requestId).2.headerCache =
      setKey s.headerCache requestId none := by
  simp only [consumePendingHeaders, readPendingHeaders, writePendingHeaders]
  split <;> rw [flush_headerCache]

theorem consume_snd_pendingMap (s : BgState) (requestId : String) :
    (consumePendingHeaders s requestId).2.pendingMap =
      setKey s.pendingMap requestId none := by
  simp only [consumePendingHeaders, readPendingHeaders, writePendingHeaders]
  split <;> rw [flush_pendingMap]

/-- After a consume, the durable mirror holds the pending map minus the
consumed entry (the forced flush made everything else durable). -/
theorem consume_snd_mirror (s : BgState) (requestId : String) :
    (consumePendingHeaders s requestId).2.mirror =
      setKey s.pendingMap requestId none := by
  simp only [consumePendingHeaders, readPendingHeaders, writePendingHeaders]
  split
  · next heq => rw [flush_mirror]
  · next heq =>
    rw [flush_mirror] at heq ⊢
    rw [setKey_none_of_none _ _ heq]

theorem cacheInv_consume (s : BgState) (requestId : String) (h : cacheInv s) :
    cacheInv (consumePendingHeaders s requestId).2 := by
  intro k
  rw [consume_snd_headerCache, consume_snd_pendingMap]
  simp only [setKey]
  split
  · rfl
  · exact h k

/-- What `consumePendingHeaders` returns when the two in-memory maps
agree: exactly the in-memory entry (or the empty patch). -/
theorem consume_fst (s : BgState) (requestId : String) (h : cacheInv s) :
    (consumePendingHeaders s requestId).1 = (s.headerCache requestId).getD {} := by
  have hhc : s.headerCache requestId = s.pendingMap requestId := h requestId
  cases hpm : s.pendingMap requestId with
  | none =>
    simp [consumePendingHeaders, readPendingHeaders, writePendingHeaders,
      flush_mirror, flush_headerCache, hpm, hhc, spreadMerge_self]
  | some e =>
    simp [consumePendingHeaders, readPendingHeaders, writePendingHeaders,
      flush_mirror, flush_headerCache, hpm, hhc, spreadMerge_self]

theorem slotReq_update_req (s : BgState) (requestId : String)
    (hs : Option (List HttpHeader)) :
    slotReq (updatePendingHeaders s requestId { requestHeaders := some (hs.getD []) })
      requestId = some (hs.getD []) := by
  simp [slotReq, updatePendingHeaders, scheduleFlush, setKey_same, spreadMerge]

theorem slotReq_update_resp (s : BgState) (requestId : String)
    (hs : Option (List HttpHeader)) (h : cacheInv s) :
    slotReq (updatePendingHeaders s requestId { responseHeaders := some (hs.getD []) })
      requestId = slotReq s requestId := by
  simp only [slotReq, updatePendingHeaders, scheduleFlush, setKey_same, spreadMerge,
    Option.some_bind]
  rw [← h requestId]
  cases hc : s.headerCache requestId <;> simp [hc]

theorem cacheInv_step (requestId : String) (s : BgState) (e : HeaderEvent)
    (h : cacheInv s) : cacheInv (stepHeaderEvent requestId s e) := by
  cases e with
  | beforeSendHeaders hs => exact cacheInv_update s requestId _ h
  | sendHeaders hs =>
    simp only [stepHeaderEvent, onSendHeaders]
    split
    · exact h
    · exact cacheInv_update s requestId _ h
  | headersReceived hs => exact cacheInv_update s requestId _ h

theorem cacheInv_run (s : BgState) (requestId : String) (es : List HeaderEvent)
    (h : cacheInv s) : cacheInv (runHeaderEvents s requestId es) := by
  induction es generalizing s with
  | nil => exact h
  | cons e es ih => exact ih _ (cacheInv_step requestId s e h)

theorem run_append (s : BgState) (requestId : String) (es : List HeaderEvent)
    (e : HeaderEvent) :
    runHeaderEvents s requestId (es ++ [e]) =
      stepHeaderEvent requestId (runHeaderEvents s requestId es) e := by
  simp [runHeaderEvents, List.foldl_append]

theorem lastPrimary_append (es : List HeaderEvent) (e : HeaderEvent) :
    lastPrimaryValue (es ++ [e]) =
      (match e with
        | .beforeSendHeaders hs => some (hs.getD [])
        | _ => lastPrimaryValue es) := by
  simp [lastPrimaryValue, List.foldl_append]

/-- The value handed to the record builder is exactly the in-memory
request-header slot, since cache and pending map stay in sync. -/
theorem codeStored_eq_slotReq (es : List HeaderEvent) :
    codeStoredRequestHeaders es =
      slotReq (runHeaderEvents initialBgState "1" es) "1" := by
  have hinv := cacheInv_run initialBgState "1" es cacheInv_initial
  rw [codeStoredRequestHeaders, consume_fst _ _ hinv]
  cases hc : (runHeaderEvents initialBgState "1" es).headerCache "1" <;>
    simp [slotReq, hc]

/-- Core of the first-writer analysis: once the last primary delivery is
non-empty, the slot holds it at terminal time. -/
theorem slot_of_lastPrimary (es : List HeaderEvent) :
    ∀ v, lastPrimaryValue es = some v → v ≠ [] →
      slotReq (runHeaderEvents initialBgState "1" es) "1" = some v := by
  induction es using List.reverseRecOn with
  | nil => intro v hv; simp [lastPrimaryValue] at hv
  | append_singleton es e ih =>
    intro v hv hne
    rw [lastPrimary_append] at hv
    rw [run_append]
    cases e with
    | beforeSendHeaders hs =>
      simp only at hv
      cases hv
      exact slotReq_update_req _ _ _
    | sendHeaders hs =>
      simp only at hv
      have hslot := ih v hv hne
      obtain ⟨e0, he0, hreq⟩ := Option.bind_eq_some.mp hslot
      have hcond : hasNonEmptyRequestHeaders
          ((runHeaderEvents initialBgState "1" es).headerCache "1") = true := by
        rw [he0]
        simp [hasNonEmptyRequestHeaders, hreq, List.length_eq_zero, hne]
      simp only [stepHeaderEvent, onSendHeaders, hcond, if_true]
      exact hslot
    | headersReceived hs =>
      simp only at hv
      have hslot := ih v hv hne
      simp only [stepHeaderEvent, onHeadersReceived]
      rw [slotReq_update_resp _ _ _ (cacheInv_run initialBgState "1" es cacheInv_initial)]
      exact hslot

theorem updateBadge_requests (s : StoreState) (count : Nat) :
    (updateBadgeCount s count).requests = s.requests := rfl

/-- Unfolding of `storeFailedRequest` for a missing url. -/
theorem store_eq_none (s : StoreState) (r : StoredFailedRequest)
    (hu : r.url = none) : storeFailedRequest s r = s := by
  unfold storeFailedRequest; rw [hu]

/-- Unfolding of `storeFailedRequest` for a present url. -/
theorem store_eq_some (s : StoreState) (r : StoredFailedRequest) (u : String)
    (hu : r.url = some u) :
    storeFailedRequest s r =
      (if u = "" then s
       else if internalUrl u = true then s
       else
         let failedRequests := r :: s.requests
         let failedRequests :=
           if failedRequests.length > MAX_STORED_REQUESTS then
             failedRequests.take MAX_STORED_REQUESTS
           else failedRequests
         updateBadgeCount { s with requests := failedRequests }
           failedRequests.length) := by
  unfold storeFailedRequest; rw [hu]

/-- An accepted record is prepended; truncation keeps the newest
`MAX_STORED_REQUESTS`, so the result is always a `take`. -/
theorem store_requests_accepted (s : StoreState) (r : StoredFailedRequest)
    (u : String) (hu : r.url = some u) (hne : u ≠ "") (hint : internalUrl u = false) :
    (storeFailedRequest s r).requests = (r :: s.requests).take MAX_STORED_REQUESTS := by
  rw [store_eq_some s r u hu, if_neg hne, if_neg (by simp [hint])]
  simp only [updateBadge_requests]
  split
  · rfl
  · next hle => rw [List.take_of_length_le (Nat.le_of_not_lt hle)]

/-- Whatever happens, the store either keeps its list or prepends and
truncates. -/
theorem store_requests_cases (s : StoreState) (r : StoredFailedRequest) :
    (storeFailedRequest s r).requests = s.requests ∨
      (storeFailedRequest s r).requests = (r :: s.requests).take MAX_STORED_REQUESTS := by
  cases hu : r.url with
  | none => left; rw [store_eq_none s r hu]
  | some u =>
    by_cases hne : u = ""
    · left; rw [store_eq_some s r u hu, if_pos hne]
    · by_cases hint : internalUrl u = true
      · left; rw [store_eq_some s r u hu, if_neg hne, if_pos hint]
      · right
        exact store_requests_accepted s r u hu hne (Bool.not_eq_true _ ▸ hint)

theorem store_length_le (s : StoreState) (r : StoredFailedRequest)
    (h : s.requests.length ≤ MAX_STORED_REQUESTS) :
    (storeFailedRequest s r).requests.length ≤ MAX_STORED_REQUESTS := by
  rcases store_requests_cases s r with hc | hc <;> rw [hc]
  · exact h
  · rw [List.length_take]
    exact Nat.min_le_left _ _

/-- Truncating to `n` after an insert absorbs an earlier truncation to `n`. -/
theorem take_absorb {α : Type} (A B : List α) (n : Nat) :
    (A ++ B.take n).take n = (A ++ B).take n := by
  rw [List.take_append_eq_append_take, List.take_append_eq_append_take, List.take_take,
    Nat.min_eq_left (Nat.sub_le n A.length)]

/-- Closed form of an insertion sequence of accepted records: the newest
`MAX_STORED_REQUESTS` of the reversed insertion order survive. -/
theorem fold_store_requests (rs : List StoredFailedRequest) :
    ∀ s : StoreState, (∀ r ∈ rs, urlOk r) →
      s.requests.length ≤ MAX_STORED_REQUESTS →
      (rs.foldl storeFailedRequest s).requests =
        (rs.reverse ++ s.requests).take MAX_STORED_REQUESTS := by
  induction rs with
  | nil => intro s _ hlen; simp [List.take_of_length_le hlen]
  | cons r rs ih =>
    intro s h hlen
    obtain ⟨u, hu, hne, hint⟩ := h r (List.mem_cons_self r rs)
    simp only [List.foldl_cons]
    rw [ih _ (fun x hx => h x (List.mem_cons_of_mem _ hx)) (store_length_le s r hlen),
      store_requests_accepted s r u hu hne hint, take_absorb,
      List.reverse_cons, List.append_assoc, List.singleton_append]

theorem scenario_requests :
    scenarioFinal.requests =
      (List.map scenarioRecord (List.range 501)).reverse.take MAX_STORED_REQUESTS := by
  rw [scenarioFinal,
    fold_store_requests _ initialStoreState
      (by
        intro r hr
        obtain ⟨i, _, hi⟩ := List.mem_map.mp hr
        exact ⟨"https://example.com/", by rw [← hi]; rfl, by decide, by decide⟩)
      (by simp [initialStoreState])]
  simp [initialStoreState]

set_option maxRecDepth 100000 in
theorem zero_not_mem_take_rev :
    (0 : Nat) ∉ (List.range 501).reverse.take 500 := by decide

/-! ### Claim theorems -/

/-- Claim C1, counterexample to the claim as stated: deliver `[X-A: 2]`
on the fallback channel, then `[]` on the primary channel.  The last
primary value is empty, so the claim predicts the fallback value
`[X-A: 2]`, but the primary delivery overwrote the slot and the code
stores `[]`. -/
theorem c1_counterexample :
    codeStoredRequestHeaders
        [.sendHeaders (some [⟨"X-A", "2"⟩]), .beforeSendHeaders (some [])] = some []
    ∧ specStoredRequestHeaders
        [.sendHeaders (some [⟨"X-A", "2"⟩]), .beforeSendHeaders (some [])] =
        some [⟨"X-A", "2"⟩]
    ∧ codeStoredRequestHeaders
        [.sendHeaders (some [⟨"X-A", "2"⟩]), .beforeSendHeaders (some [])] ≠
      specStoredRequestHeaders
        [.sendHeaders (some [⟨"X-A", "2"⟩]), .beforeSendHeaders (some [])] :=
  ⟨by decide, by decide, by decide⟩

/-- Claim C1 as amended: (a) if the last primary-channel delivery is
non-empty it is exactly what gets stored; (b) a fallback delivery is a
no-op whenever the slot already holds a non-empty value; (c) otherwise
the fallback delivery patches the slot and is what a terminal event
would store.  (The unrestricted `otherwise the fallback's value` reading
fails because a primary delivery always overwrites the slot, even with
an empty value — see the counterexample.) -/
theorem c1_request_headers_resolution :
    (∀ (es : List HeaderEvent) (v : List HttpHeader),
        lastPrimaryValue es = some v → v ≠ [] →
        codeStoredRequestHeaders es = some v)
    ∧ (∀ (es : List HeaderEvent) (hs : Option (List HttpHeader)),
        hasNonEmptyRequestHeaders
            ((runHeaderEvents initialBgState "1" es).headerCache "1") = true →
        runHeaderEvents initialBgState "1" (es ++ [.sendHeaders hs]) =
          runHeaderEvents initialBgState "1" es)
    ∧ (∀ (es : List HeaderEvent) (hs : Option (List HttpHeader)),
        hasNonEmptyRequestHeaders
            ((runHeaderEvents initialBgState "1" es).headerCache "1") = false →
        codeStoredRequestHeaders (es ++ [.sendHeaders hs]) = some (hs.getD [])) := by
  refine ⟨?_, ?_, ?_⟩
  · intro es v h1 h2
    rw [codeStored_eq_slotReq]
    exact slot_of_lastPrimary es v h1 h2
  · intro es hs h
    rw [run_append]
    simp [stepHeaderEvent, onSendHeaders, h]
  · intro es hs h
    rw [codeStored_eq_slotReq, run_append]
    simp only [stepHeaderEvent, onSendHeaders, h, Bool.false_eq_true, if_false]
    exact slotReq_update_req _ _ _

/-- Claim C1 witness, which is also the spec's §8 scenario: primary
delivers `[X-A: 1]`, fallback later delivers `[X-A: 2]`; the stored
value is the primary one. -/
theorem c1_request_headers_resolution_witness :
    codeStoredRequestHeaders
        [.beforeSendHeaders (some [⟨"X-A", "1"⟩]), .sendHeaders (some [⟨"X-A", "2"⟩])] =
      some [⟨"X-A", "1"⟩] :=
  c1_request_headers_resolution.1 _ _ (by decide) (by decide)

/-- Claim C2: the `onCompleted` listener builds and submits a record
exactly when `statusCode >= 400`; below the boundary the whole event is
a no-op, at or above it the produced record is stored. -/
theorem c2_completion_threshold :
    ∀ (bg : BgState) (st : StoreState) (d : CompletedDetails) (now : Nat),
      ((onCompletedProduced bg d now).isSome = true ↔ 400 ≤ d.statusCode)
      ∧ (d.statusCode ≤ 399 →
          onCompletedProduced bg d now = none ∧ onCompleted bg st d now = (bg, st))
      ∧ (400 ≤ d.statusCode →
          ∃ r, onCompletedProduced bg d now = some r ∧
            onCompleted bg st d now =
              ((consumePendingHeaders bg d.requestId).2, storeFailedRequest st r)) := by
  intro bg st d now
  refine ⟨?_, ?_, ?_⟩
  · by_cases h : 400 ≤ d.statusCode <;> simp [onCompletedProduced, h]
  · intro h399
    have h : ¬ 400 ≤ d.statusCode := by omega
    simp [onCompletedProduced, onCompleted, h]
  · intro h
    refine ⟨completedRecord d now (consumePendingHeaders bg d.requestId).1, ?_, ?_⟩
    · simp [onCompletedProduced, h]
    · simp [onCompleted, h]

/-- Claim C2 witness: at the boundary, status 400 produces a record and
status 399 leaves every piece of state untouched. -/
theorem c2_completion_threshold_witness :
    (onCompletedProduced initialBgState exCompleted400 2).isSome = true
    ∧ onCompleted initialBgState initialStoreState exCompleted399 2 =
        (initialBgState, initialStoreState) :=
  ⟨(c2_completion_threshold initialBgState initialStoreState exCompleted400 2).1.mpr
      (by decide),
   ((c2_completion_threshold initialBgState initialStoreState exCompleted399 2).2.1
      (by decide)).2⟩

/-- Claim C3: every insertion sequence starting from a list within
capacity keeps the stored list within `MAX_STORED_REQUESTS = 500`. -/
theorem c3_bounded_store_capacity :
    ∀ (s : StoreState) (rs : List StoredFailedRequest),
      s.requests.length ≤ MAX_STORED_REQUESTS →
      (rs.foldl storeFailedRequest s).requests.length ≤ MAX_STORED_REQUESTS := by
  intro s rs
  induction rs generalizing s with
  | nil => exact fun h => h
  | cons r rs ih => exact fun h => ih _ (store_length_le s r h)

/-- Claim C3 witness: a concrete insertion into the empty store stays
within capacity. -/
theorem c3_bounded_store_capacity_witness :
    initialStoreState.requests.length ≤ MAX_STORED_REQUESTS
    ∧ ([scenarioRecord 3].foldl storeFailedRequest initialStoreState).requests.length ≤
        MAX_STORED_REQUESTS :=
  ⟨by decide, c3_bounded_store_capacity initialStoreState [scenarioRecord 3] (by decide)⟩

/-- Claim C4: an accepted record lands at index 0; at capacity, the
record previously at index `N-1` (the `getLast?`) is evicted when ids are
unique; and the 501-into-500 scenario ends at exactly 500 records with
the first-inserted record absent. -/
theorem c4_insert_at_head_evict_tail :
    (∀ (s : StoreState) (r : StoredFailedRequest) (u : String),
        r.url = some u → u ≠ "" → internalUrl u = false →
        (storeFailedRequest s r).requests.head? = some r)
    ∧ (∀ (s : StoreState) (r q : StoredFailedRequest) (u : String),
        r.url = some u → u ≠ "" → internalUrl u = false →
        s.requests.length = MAX_STORED_REQUESTS →
        (s.requests.map (fun x => x.id)).Nodup →
        r.id ∉ s.requests.map (fun x => x.id) →
        s.requests.getLast? = some q →
        q ∉ (storeFailedRequest s r).requests)
    ∧ (scenarioFinal.requests.length = MAX_STORED_REQUESTS
       ∧ scenarioRecord 0 ∉ scenarioFinal.requests) := by
  refine ⟨?_, ?_, ?_, ?_⟩
  · intro s r u hu hne hint
    rw [store_requests_accepted s r u hu hne hint,
      show MAX_STORED_REQUESTS = 499 + 1 from rfl, List.take_succ_cons]
    rfl
  · intro s r q u hu hne hint hlen hnodup hrid hq
    rw [store_requests_accepted s r u hu hne hint,
      show MAX_STORED_REQUESTS = 499 + 1 from rfl, List.take_succ_cons]
    intro hmem
    have hqmem : q ∈ s.requests := by
      rw [List.getLast?_eq_getElem?] at hq
      exact List.getElem?_mem hq
    rcases List.mem_cons.mp hmem with hqr | hqtake
    · subst hqr
      exact hrid (List.mem_map_of_mem _ hqmem)
    · have h1 : q.id ∈ (s.requests.take 499).map (fun x => x.id) :=
        List.mem_map_of_mem _ hqtake
      have hg : s.requests[499]? = some q := by
        rw [List.getLast?_eq_getElem?, hlen] at hq
        exact hq
      have h2 : q ∈ s.requests.drop 499 := by
        have hd : (s.requests.drop 499)[0]? = some q := by
          rw [List.getElem?_drop]
          exact hg
        exact List.getElem?_mem hd
      have h3 : q.id ∈ (s.requests.drop 499).map (fun x => x.id) :=
        List.mem_map_of_mem _ h2
      have hsplit : s.requests.map (fun x => x.id) =
          (s.requests.take 499).map (fun x => x.id) ++
            (s.requests.drop 499).map (fun x => x.id) := by
        rw [← List.map_append, List.take_append_drop]
      exact List.disjoint_of_nodup_append (hsplit ▸ hnodup) h1 h3
  · rw [scenario_requests]
    simp [List.length_take, MAX_STORED_REQUESTS]
  · rw [scenario_requests, ← List.map_reverse, ← List.map_take]
    intro hmem
    obtain ⟨j, hjmem, hj⟩ := List.mem_map.mp hmem
    have hj0 : j = 0 := congrArg StoredFailedRequest.timestamp hj
    subst hj0
    exact zero_not_mem_take_rev hjmem

/-- Claim C4 witness: inserting a record with an accepted url into the
empty store puts it at index 0. -/
theorem c4_insert_at_head_evict_tail_witness :
    (storeFailedRequest initialStoreState (scenarioRecord 1)).requests.head? =
      some (scenarioRecord 1) :=
  c4_insert_at_head_evict_tail.1 initialStoreState (scenarioRecord 1)
    "https://example.com/" rfl (by decide) (by decide)

/-- Claim C5: consuming a requestId first forces a flush (the whole
in-memory pending map becomes the durable mirror), deletes the entry
from both in-memory caches and from the mirror, and returns the merge of
the (post-flush) mirror view and the in-memory view of the entry. -/
theorem c5_consume_flush_delete_merge :
    ∀ (s : BgState) (requestId : String),
      (flushPendingHeaders s).mirror = s.pendingMap
      ∧ (consumePendingHeaders s requestId).1 =
          spreadMerge (((flushPendingHeaders s).mirror requestId).getD {})
            ((s.headerCache requestId).getD {})
      ∧ (consumePendingHeaders s requestId).2.headerCache requestId = none
      ∧ (consumePendingHeaders s requestId).2.pendingMap requestId = none
      ∧ (consumePendingHeaders s requestId).2.mirror requestId = none
      ∧ (∀ k, k ≠ requestId →
          (consumePendingHeaders s requestId).2.mirror k = s.pendingMap k) := by
  intro s requestId
  refine ⟨flush_mirror s, ?_, ?_, ?_, ?_, ?_⟩
  · simp only [consumePendingHeaders, readPendingHeaders, writePendingHeaders]
    split <;> rw [flush_headerCache]
  · rw [consume_snd_headerCache, setKey_same]
  · rw [consume_snd_pendingMap, setKey_same]
  · rw [consume_snd_mirror, setKey_same]
  · intro k hk
    rw [consume_snd_mirror, setKey_other _ _ _ _ hk]

/-- Claim C5 witness: consume request `"1"` from a state holding one
pending entry for `"1"` and one for `"2"`; the entry for `"1"` is
returned and gone everywhere, the entry for `"2"` became durable. -/
theorem c5_consume_flush_delete_merge_witness :
    (consumePendingHeaders
        (updatePendingHeaders
          (updatePendingHeaders initialBgState "1"
            { requestHeaders := some [⟨"A", "1"⟩] })
          "2" { requestHeaders := some [⟨"B", "2"⟩] })
        "1").2.mirror "2" =
      (updatePendingHeaders
          (updatePendingHeaders initialBgState "1"
            { requestHeaders := some [⟨"A", "1"⟩] })
          "2" { requestHeaders := some [⟨"B", "2"⟩] }).pendingMap "2"
    ∧ (consumePendingHeaders
        (updatePendingHeaders
          (updatePendingHeaders initialBgState "1"
            { requestHeaders := some [⟨"A", "1"⟩] })
          "2" { requestHeaders := some [⟨"B", "2"⟩] })
        "1").2.mirror "1" = none :=
  ⟨((c5_consume_flush_delete_merge _ "1").2.2.2.2.2) "2" (by decide),
   (c5_consume_flush_delete_merge _ "1").2.2.2.2.1⟩

/-- Claim C6: the record built by the `onErrorOccurred` listener always
carries `statusCode = null` (never a coerced 0), the host error string
with default `Unknown error`, and method default `GET`; whenever the
event is stored at all, it is stored with exactly these fields. -/
theorem c6_error_event_null_status :
    ∀ (bg : BgState) (st : StoreState) (d : ErrorDetails) (now : Nat)
      (cached : HeaderCacheEntry),
      (errorRecord d now cached).statusCode = none
      ∧ (errorRecord d now cached).statusCode ≠ some 0
      ∧ (errorRecord d now cached).error = d.error.getD "Unknown error"
      ∧ (d.error = none → (errorRecord d now cached).error = "Unknown error")
      ∧ (errorRecord d now cached).method = d.method.getD "GET"
      ∧ (d.method = none → (errorRecord d now cached).method = "GET")
      ∧ ((onErrorOccurred bg st d now).2.requests = st.requests ∨
         (onErrorOccurred bg st d now).2.requests =
           (errorRecord d now (consumePendingHeaders bg d.requestId).1 ::
             st.requests).take MAX_STORED_REQUESTS) := by
  intro bg st d now cached
  refine ⟨rfl, by simp [errorRecord], rfl, ?_, rfl, ?_, ?_⟩
  · intro h; simp [errorRecord, h]
  · intro h; simp [errorRecord, h]
  · exact store_requests_cases st _

/-- Claim C6 witness: an error event with no host error string and no
method stores `Unknown error` and `GET`. -/
theorem c6_error_event_null_status_witness :
    (errorRecord noHeaderErrorDetails 3 {}).error = "Unknown error"
    ∧ (errorRecord noHeaderErrorDetails 3 {}).method = "GET" :=
  ⟨(c6_error_event_null_status initialBgState initialStoreState
      noHeaderErrorDetails 3 {}).2.2.2.1 rfl,
   (c6_error_event_null_status initialBgState initialStoreState
      noHeaderErrorDetails 3 {}).2.2.2.2.2.1 rfl⟩

/-- Claim C7: a store attempt whose url is missing (or not a string) or
starts with an internal/privileged scheme leaves the entire store state —
request list, badge text, badge colour — unchanged, with no error. -/
theorem c7_invalid_url_silently_dropped :
    ∀ (s : StoreState) (r : StoredFailedRequest),
      (r.url = none ∨ ∃ u, r.url = some u ∧ internalUrl u = true) →
      storeFailedRequest s r = s := by
  intro s r h
  rcases h with h | ⟨u, hu, hint⟩
  · exact store_eq_none s r h
  · rw [store_eq_some s r u hu]
    by_cases hne : u = ""
    · rw [if_pos hne]
    · rw [if_neg hne, if_pos hint]

/-- Claim C7 witness: a record with a missing url and one with a
`chrome://` url are both dropped without touching the store. -/
theorem c7_invalid_url_silently_dropped_witness :
    storeFailedRequest initialStoreState
        { id := "9-1", url := none, method := "GET", statusCode := some 500
          error := "HTTP 500", timestamp := 1 } = initialStoreState
    ∧ storeFailedRequest initialStoreState
        { id := "9-2", url := some "chrome://settings", method := "GET"
          statusCode := some 500, error := "HTTP 500", timestamp := 2 } =
        initialStoreState :=
  ⟨c7_invalid_url_silently_dropped initialStoreState _ (Or.inl rfl),
   c7_invalid_url_silently_dropped initialStoreState _
     (Or.inr ⟨"chrome://settings", rfl, by decide⟩)⟩

/-- Claim C8: `clearFailedRequests` empties the store, repaints the badge
for a zero count (empty text), and answers `success = true`; an
immediately following `getFailedRequests` returns the empty collection. -/
theorem c8_clear_then_list_empty :
    ∀ s : StoreState,
      (handleMessage s "clearFailedRequests").1 = MessageResponse.success true
      ∧ (handleMessage s "clearFailedRequests").2.requests = []
      ∧ (handleMessage s "clearFailedRequests").2.badgeText = ""
      ∧ (handleMessage (handleMessage s "clearFailedRequests").2
          "getFailedRequests").1 = MessageResponse.failedRequests [] := by
  intro s
  exact ⟨rfl, rfl, rfl, rfl⟩

/-- Claim C9, counterexample to the `empty list` reading: a terminal
error event for a request with no captured header events still builds
and stores a record, but its header fields are absent (`none`), not the
empty list. -/
theorem c9_counterexample :
    (errorRecord noHeaderErrorDetails 5
        (consumePendingHeaders initialBgState "7").1).requestHeaders = none
    ∧ (errorRecord noHeaderErrorDetails 5
        (consumePendingHeaders initialBgState "7").1).requestHeaders ≠ some []
    ∧ (errorRecord noHeaderErrorDetails 5
        (consumePendingHeaders initialBgState "7").1).responseHeaders ≠ some []
    ∧ (onErrorOccurred initialBgState initialStoreState
        noHeaderErrorDetails 5).2.requests.length = 1 :=
  ⟨rfl, by decide, by decide, by decide⟩

/-- Claim C9 as amended: record construction on a terminal error event
never aborts for lack of headers — with an accepted url the record is
stored at the head regardless of header state; when no header event was
captured the header fields degrade to absent (`none`); a header event
whose payload is absent or malformed degrades to the empty list at
capture time. -/
theorem c9_headers_degrade_gracefully :
    (∀ (bg : BgState) (st : StoreState) (d : ErrorDetails) (now : Nat),
        d.url ≠ "" → internalUrl d.url = false →
        (onErrorOccurred bg st d now).2.requests.head? =
          some (errorRecord d now (consumePendingHeaders bg d.requestId).1))
    ∧ (∀ (bg : BgState) (d : ErrorDetails) (now : Nat),
        cacheInv bg → bg.headerCache d.requestId = none →
        (errorRecord d now
            (consumePendingHeaders bg d.requestId).1).requestHeaders = none
        ∧ (errorRecord d now
            (consumePendingHeaders bg d.requestId).1).responseHeaders = none)
    ∧ (∀ (bg : BgState) (requestId : String),
        slotReq (onBeforeSendHeaders bg requestId none) requestId = some []
        ∧ ((onHeadersReceived bg requestId none).headerCache requestId).bind
            (fun e => e.responseHeaders) = some []) := by
  refine ⟨?_, ?_, ?_⟩
  · intro bg st d now hne hint
    have hs : (onErrorOccurred bg st d now).2.requests =
        (errorRecord d now (consumePendingHeaders bg d.requestId).1 ::
          st.requests).take MAX_STORED_REQUESTS :=
      store_requests_accepted st _ d.url rfl hne hint
    rw [hs, show MAX_STORED_REQUESTS = 499 + 1 from rfl, List.take_succ_cons]
    rfl
  · intro bg d now hinv hnone
    have hc := consume_fst bg d.requestId hinv
    rw [hnone] at hc
    exact ⟨by simp [errorRecord, hc], by simp [errorRecord, hc]⟩
  · intro bg requestId
    refine ⟨slotReq_update_req bg requestId none, ?_⟩
    simp [onHeadersReceived, updatePendingHeaders, scheduleFlush, setKey_same,
      spreadMerge]

/-- Claim C9 witness: the no-header error event is stored at index 0. -/
theorem c9_headers_degrade_gracefully_witness :
    (onErrorOccurred initialBgState initialStoreState
        noHeaderErrorDetails 5).2.requests.head? =
      some (errorRecord noHeaderErrorDetails 5
        (consumePendingHeaders initialBgState "7").1) :=
  c9_headers_degrade_gracefully.1 initialBgState initialStoreState
    noHeaderErrorDetails 5 (by decide) (by decide)

/-- Claim C10: the in-memory header cache and the in-memory pending map
hold exactly the same keys with equal entries: a header patch and a
consume both preserve the agreement, and the startup seed establishes it
from the fresh (empty) cache the worker boots with. -/
theorem c10_cache_and_pending_agree :
    (∀ (s : BgState) (requestId : String) (patch : HeaderCacheEntry),
        cacheInv s → cacheInv (updatePendingHeaders s requestId patch))
    ∧ (∀ (s : BgState) (requestId : String),
        cacheInv s → cacheInv (consumePendingHeaders s requestId).2)
    ∧ (∀ s : BgState, s.headerCache = emptyMap → cacheInv (initializeBg s)) := by
  refine ⟨cacheInv_update, cacheInv_consume, ?_⟩
  intro s h k
  simp only [initializeBg, readPendingHeaders]
  cases hm : s.mirror k with
  | none => rw [h]; rfl
  | some v => rfl

/-- Claim C10 witness: the agreement holds after a patch, a consume, and
the startup seed on concrete states. -/
theorem c10_cache_and_pending_agree_witness :
    cacheInv (updatePendingHeaders initialBgState "1"
        { requestHeaders := some [⟨"A", "1"⟩] })
    ∧ cacheInv (consumePendingHeaders initialBgState "1").2
    ∧ cacheInv (initializeBg initialBgState) :=
  ⟨c10_cache_and_pending_agree.1 initialBgState "1" _ cacheInv_initial,
   c10_cache_and_pending_agree.2.1 initialBgState "1" cacheInv_initial,
   c10_cache_and_pending_agree.2.2 initialBgState rfl⟩

end NetFail
